import Mathlib

/-!
A verification development for the aiida-core excerpt: archive import
dispatch, extras/comment conflict resolution, backend user/log
collections, and the profile CLI commands. Python functions are
shallowly embedded as Lean functions; mutable database state is passed
explicitly and returned.
-/

namespace Aiida

/-! ## Backend dispatch (`aiida/tools/importexport/dbimport/main.py`) -/

/-- The identifier of the Django storage backend (`aiida.backends.BACKEND_DJANGO`). -/
def BACKEND_DJANGO : String := "django"

/-- The identifier of the SQLAlchemy storage backend (`aiida.backends.BACKEND_SQLA`). -/
def BACKEND_SQLA : String := "sqlalchemy"

/-- The `ArchiveImportError` exception raised by `import_data`. -/
structure ArchiveImportError where
  message : String
deriving Repr, DecidableEq

/-- Shallow embedding of `import_data` from
`aiida/tools/importexport/dbimport/main.py`: a pure routing function.
`import_data_sqla` and `import_data_dj` are the backend-specific
importers (their bodies live outside this excerpt, so they are
parameters); `backend` is `configuration.PROFILE.database_backend`;
`in_path`, `group` and `kwargs` are forwarded untouched.  An unknown
backend raises `ArchiveImportError`. -/
def import_data {P G K R : Type}
    (import_data_sqla import_data_dj : P → G → K → R)
    (backend : String) (in_path : P) (group : G) (kwargs : K) :
    Except ArchiveImportError R :=
  if backend = BACKEND_SQLA then
    Except.ok (import_data_sqla in_path group kwargs)
  else if backend = BACKEND_DJANGO then
    Except.ok (import_data_dj in_path group kwargs)
  else
    Except.error ⟨s!"Unknown backend: {backend}"⟩

/-! ## Django users (`aiida/orm/implementation/django/users.py`) -/

/-- A row of the Django `DbUser` model.  A freshly constructed,
not-yet-saved model instance has no primary key (`pk = none`). -/
structure DbUser where
  pk : Option Nat
  email : String
  first_name : String
  last_name : String
  institution : String
deriving Repr, DecidableEq

/-- The `DjangoUser` wrapper: holds a (wrapped) `DbUser` model. -/
structure DjangoUser where
  dbmodel : DbUser
deriving Repr, DecidableEq

/-- Shallow embedding of `DjangoUser.__init__`: wraps a fresh
`DbUser(email=…, first_name=…, last_name=…, institution=…)`.  The
Django model constructor does not save the row, so the wrapped model
has no primary key and the user table is untouched. -/
def DjangoUser.init (email first_name last_name institution : String) : DjangoUser :=
  ⟨⟨none, email, first_name, last_name, institution⟩⟩

/-- `DjangoUser.from_dbmodel`: wrap an existing table row. -/
def DjangoUser.from_dbmodel (u : DbUser) : DjangoUser := ⟨u⟩

/-- Shallow embedding of `DjangoUserCollection.create`: builds a new
`DjangoUser` and returns it together with the (unchanged) user table,
which is threaded explicitly to express the frame condition. -/
def DjangoUserCollection.create (table : List DbUser)
    (email first_name last_name institution : String) :
    DjangoUser × List DbUser :=
  (DjangoUser.init email first_name last_name institution, table)

/-- Shallow embedding of `DjangoUserCollection.find`: builds
`query_list` from the optional `id` and `email` filters (in that
order, as the source does), takes all rows when the list is empty and
the conjunction of the filters otherwise, and wraps each row with
`from_dbmodel`.  The table is returned unchanged. -/
def DjangoUserCollection.find (table : List DbUser)
    (email : Option String) (id : Option Nat) :
    List DjangoUser × List DbUser :=
  let query_list : List (DbUser → Bool) :=
    (match id with
     | some i => [fun u => decide (u.pk = some i)]
     | none => []) ++
    (match email with
     | some e => [fun u => decide (u.email = e)]
     | none => [])
  let dbusers :=
    if query_list.isEmpty then table
    else table.filter (fun u => query_list.all (fun q => q u))
  (dbusers.map DjangoUser.from_dbmodel, table)

/-! ## Comment merge (documented in `import_data`'s docstring) -/

/-- A comment attached to a node: UUID, modification time (`mtime`,
modelled as a natural timestamp) and body text. -/
structure ArchiveComment where
  uuid : String
  mtime : Nat
  content : String
deriving Repr, DecidableEq

/-- The `comment_mode` argument of `import_data`. -/
inductive CommentMode where
  | newest
  | overwrite
deriving Repr, DecidableEq

/-- Modelled from the spec: the backend importer bodies that merge
comments are not part of this excerpt; `import_data`'s docstring and
the spec state that when a comment with an already-present UUID is
encountered, `newest` keeps whichever of (existing, incoming) has the
later modification time and `overwrite` always replaces the existing
comment with the incoming one. -/
def mergeComment : CommentMode → ArchiveComment → ArchiveComment → ArchiveComment
  | CommentMode.overwrite, _, incoming => incoming
  | CommentMode.newest, existing, incoming =>
      if existing.mtime < incoming.mtime then incoming else existing

/-! ## Log collection (`aiida/orm/implementation/logs.py`) -/

/-- A persisted log entry; `id` is the primary key. -/
structure LogEntry where
  id : Nat
  loggername : String
  levelname : String
  dbnode_id : Nat
  message : String
deriving Repr, DecidableEq

/-- One entry of the `filters` dict passed to `delete_many`: a
field/value pair, well-typed by construction. -/
inductive LogFilter where
  | byId (pk : Nat)
  | byLoggername (name : String)
  | byLevelname (name : String)
  | byDbnodeId (pk : Nat)
  | byMessage (text : String)
deriving Repr, DecidableEq

/-- Whether a log entry satisfies one filter entry. -/
def LogEntry.matches (log : LogEntry) : LogFilter → Bool
  | LogFilter.byId pk => decide (log.id = pk)
  | LogFilter.byLoggername name => decide (log.loggername = name)
  | LogFilter.byLevelname name => decide (log.levelname = name)
  | LogFilter.byDbnodeId pk => decide (log.dbnode_id = pk)
  | LogFilter.byMessage text => decide (log.message = text)

/-- Modelled from the spec: the concrete implementation of
`BackendLogCollection.delete_many` is not part of this excerpt (only
the abstract declaration is).  Per the declaration's docstring and the
spec it raises a `ValidationError` when `filters` is empty, before any
row is touched, and otherwise deletes the logs matching all filter
entries and returns their former primary keys.  Returns the deleted
primary keys and the remaining collection. -/
def delete_many (logs : List LogEntry) (filters : List LogFilter) :
    Except String (List Nat × List LogEntry) :=
  if filters.isEmpty then
    Except.error "filters must not be empty"
  else
    let deleted := logs.filter (fun l => filters.all (fun f => l.matches f))
    let remaining := logs.filter (fun l => !filters.all (fun f => l.matches f))
    Except.ok (deleted.map (fun l => l.id), remaining)

/-- The log collection after a `delete_many` call: unchanged when the
call raised, the remaining entries otherwise. -/
def delete_many_collection (logs : List LogEntry) (filters : List LogFilter) :
    List LogEntry :=
  match delete_many logs filters with
  | Except.error _ => logs
  | Except.ok (_, remaining) => remaining

/-! ## Extras conflict resolution (documented in `import_data`'s docstring) -/

/-- The four outcomes the spec allows a per-key extras decision to
take: keep existing, take incoming, delete, or prompt the user. -/
inductive ExtrasAction where
  | keepExisting
  | takeIncoming
  | delete
  | promptUser
deriving Repr, DecidableEq

/-- The `extras_mode_existing` 3-letter policy code, one character per
case: `onExistingOnly` ('k' keep / 'n' do not keep) for keys only on
the existing node, `onIncomingOnly` ('c' create / 'n' do not create)
for keys only in the incoming record, and `onCollision` ('l' leave
old / 'u' update / 'd' delete / 'a' ask) for keys present on both
sides. -/
structure ExtrasPolicy where
  onExistingOnly : Char
  onIncomingOnly : Char
  onCollision : Char
deriving Repr, DecidableEq

/-- Modelled from the spec: the backend importer bodies that merge
extras are not part of this excerpt; per `import_data`'s docstring and
the spec, each key is classified by the (present-in-existing,
present-in-incoming, values-equal) triple and the policy code picks
one action.  The 'a' (ask) character prompts only when the values
differ. -/
def resolveKey (p : ExtrasPolicy) (existing incoming : Option String) : ExtrasAction :=
  match existing, incoming with
  | none, none => ExtrasAction.delete
  | some _, none =>
      if p.onExistingOnly = 'k' then ExtrasAction.keepExisting else ExtrasAction.delete
  | none, some _ =>
      if p.onIncomingOnly = 'c' then ExtrasAction.takeIncoming else ExtrasAction.delete
  | some v, some w =>
      if v = w then ExtrasAction.keepExisting
      else if p.onCollision = 'l' then ExtrasAction.keepExisting
      else if p.onCollision = 'u' then ExtrasAction.takeIncoming
      else if p.onCollision = 'd' then ExtrasAction.delete
      else ExtrasAction.promptUser

/-- The value an action leaves for a key.  `promptUser` defers to the
user; the merged mapping records no value for it. -/
def applyAction (existing incoming : Option String) : ExtrasAction → Option String
  | ExtrasAction.keepExisting => existing
  | ExtrasAction.takeIncoming => incoming
  | ExtrasAction.delete => none
  | ExtrasAction.promptUser => none

/-- The merged value of one key, a pure function of the two extras
mappings and the policy. -/
def mergedValue (p : ExtrasPolicy) (existing incoming : List (String × String))
    (k : String) : Option String :=
  applyAction (existing.lookup k) (incoming.lookup k)
    (resolveKey p (existing.lookup k) (incoming.lookup k))

/-- The merged extras mapping obtained by visiting the keys in the
order of `keys`. -/
def mergeExtras (p : ExtrasPolicy) (existing incoming : List (String × String))
    (keys : List String) : List (String × String) :=
  keys.foldr
    (fun k acc =>
      match mergedValue p existing incoming k with
      | some v => (k, v) :: acc
      | none => acc)
    []

/-! ## Archive node import and export
(spec §4.1, §8; only the dispatching `import_data` and the test
`test_calcfunction` are in this excerpt) -/

/-- A node as stored or archived: portable UUID plus attributes. -/
structure ArchiveNode where
  uuid : String
  attrs : List (String × String)
deriving Repr, DecidableEq

/-- The created/existing summary `import_data` returns. -/
structure ImportResult where
  created : List String
  existing : List String
deriving Repr, DecidableEq

/-- Whether the store already holds a node with the given UUID. -/
def containsUuid (store : List ArchiveNode) (u : String) : Bool :=
  store.any (fun n => decide (n.uuid = u))

/-- Modelled from the spec: the backend importer bodies are not part
of this excerpt; per the spec's UUID-identity invariant, each archive
node whose UUID is already in the store is reported as existing and
left alone, and each other node is created and reported as created. -/
def importNodes : List ArchiveNode → List ArchiveNode → ImportResult × List ArchiveNode
  | store, [] => (⟨[], []⟩, store)
  | store, node :: rest =>
    if containsUuid store node.uuid then
      let r := importNodes store rest
      (⟨r.1.created, node.uuid :: r.1.existing⟩, r.2)
    else
      let r := importNodes (store ++ [node]) rest
      (⟨node.uuid :: r.1.created, r.1.existing⟩, r.2)

/-- The UUIDs of the direct inputs (sources of links into `u`). -/
def parentsOf (links : List (String × String)) (u : String) : List String :=
  (links.filter (fun l => decide (l.2 = u))).map (fun l => l.1)

/-- One backward expansion step of the export traversal. -/
def expandOnce (links : List (String × String)) (frontier : List String) : List String :=
  (frontier ++ frontier.flatMap (fun u => parentsOf links u)).dedup

/-- Fuelled backward closure: the selected UUIDs and their ancestors. -/
def ancestorClosure (links : List (String × String)) : Nat → List String → List String
  | 0, frontier => frontier
  | Nat.succ n, frontier => ancestorClosure links n (expandOnce links frontier)

/-- A provenance graph: nodes and directed links (source, target). -/
structure Graph where
  nodes : List ArchiveNode
  links : List (String × String)
deriving Repr, DecidableEq

/-- Modelled from the spec: the body of `export` is not part of this
excerpt; per the spec's round-trip property and `test_calcfunction`,
exporting a selection archives the selected nodes together with their
backward provenance (ancestors), and excludes the rest. -/
def exportNodes (g : Graph) (selected : List String) : List ArchiveNode :=
  let keep := ancestorClosure g.links g.nodes.length selected
  g.nodes.filter (fun n => keep.contains n.uuid)

/-- The provenance graph of `test_calcfunction`: numbers `a` … `e`,
the calcfunction node `f` adding `a` to the selected maximum `e`, and
the result `res`.  Nodes `b`, `c`, `d` are the unselected inputs that
must not survive a round trip through export of `res`. -/
def calcfunctionGraph : Graph :=
  ⟨[⟨"a", [("value", "0")]⟩, ⟨"b", [("value", "1")]⟩, ⟨"c", [("value", "2")]⟩,
    ⟨"d", [("value", "3")]⟩, ⟨"e", [("value", "4")]⟩, ⟨"f", []⟩,
    ⟨"res", [("value", "4")]⟩],
   [("a", "f"), ("e", "f"), ("f", "res")]⟩

/-! ## Profile CLI (`aiida/cmdline/commands/profile.py`) -/

/-- `valid_processes` from `profile.py`. -/
def valid_processes : List String := ["verdi", "daemon"]

/-- Outcome of `profile setdefault`: stderr lines, the process exit
code (`sys.exit(1)` on misuse, 0 otherwise) and the resulting
process-to-default-profile settings. -/
structure SetdefaultOutcome where
  stderrLines : List String
  exitCode : Nat
  defaults : List (String × String)
deriving Repr, DecidableEq

/-- `set_default_profile(process, profile, force_rewrite=True)` from
`aiida.common.setup` (outside this excerpt): records `profile` as the
default for `process`. -/
def set_default_profile (defaults : List (String × String))
    (process profile : String) : List (String × String) :=
  (process, profile) :: defaults.filter (fun kv => decide (kv.1 ≠ process))

/-- Shallow embedding of `Profile.profile_setdefault`: with other than
two arguments it prints a usage message on stderr and exits 1; with an
invalid process name it prints an error and exits 1; in both cases the
settings are untouched.  Otherwise it records the new default. -/
def profile_setdefault (defaults : List (String × String)) (args : List String) :
    SetdefaultOutcome :=
  if args.length ≠ 2 then
    { stderrLines :=
        ["You have to pass (only) two parameters after profile setdefault, the name of",
         "the process and the profile to be set as the default."]
      exitCode := 1
      defaults := defaults }
  else
    let process := args.getD 0 ""
    if valid_processes.contains process = false then
      { stderrLines := [s!"{process} is not a valid process."]
        exitCode := 1
        defaults := defaults }
    else
      { stderrLines := []
        exitCode := 0
        defaults := set_default_profile defaults process (args.getD 1 "") }

/-- The per-profile connection parameters the config stores
(`AIIDADB_NAME`, `AIIDADB_USER`). -/
structure ProfileInfo where
  dbName : String
  dbUser : String
deriving Repr, DecidableEq

/-- The persisted state `profile delete` acts on: the profile registry
of the configuration file plus the PostgreSQL databases and database
users. -/
structure DeleteState where
  profiles : List (String × ProfileInfo)
  databases : List String
  dbusers : List String
deriving Repr, DecidableEq

/-- Outcome of `profile delete`: the final persisted state and the
uncaught `ValueError` message, if any (an uncaught exception makes the
process exit non-zero). -/
structure DeleteOutcome where
  state : DeleteState
  error : Option String
deriving Repr, DecidableEq

/-- Shallow embedding of `Profile.profile_delete`'s loop over the
requested profile names.  `confirmDb`/`confirmUser` model the
interactive `click.confirm` answers.  For each name in turn: a missing
profile raises `ValueError` (leaving the state as mutated so far);
otherwise the database and database user are dropped when confirmed,
the profile is removed from the registry and the config is persisted
(`update_config`) before the next name is processed. -/
def profile_delete (confirmDb confirmUser : String → Bool) :
    DeleteState → List String → DeleteOutcome
  | st, [] => ⟨st, none⟩
  | st, p :: rest =>
    match st.profiles.lookup p with
    | none => ⟨st, some s!"Profile \x22{p}\x22 does not exist"⟩
    | some info =>
      let st1 :=
        if confirmDb info.dbName then
          { st with databases := st.databases.filter (fun d => decide (d ≠ info.dbName)) }
        else st
      let st2 :=
        if confirmUser info.dbUser then
          { st1 with dbusers := st1.dbusers.filter (fun u => decide (u ≠ info.dbUser)) }
        else st1
      let st3 := { st2 with profiles := st2.profiles.filter (fun kv => decide (kv.1 ≠ p)) }
      profile_delete confirmDb confirmUser st3 rest

/-- The environment `profile list` reads: the configured profiles,
`settings.AIIDADB_PROFILE`, and the defaults for the current process
and for the daemon. -/
structure ListEnv where
  profiles : List String
  aiidadb_profile : Option String
  default_profile : Option String
  default_daemon_profile : Option String
deriving Repr, DecidableEq

/-- One printed line of `profile list`: the profile name, the leading
symbol (">" current, "*" otherwise) and the trailing marker string. -/
structure ProfileLine where
  name : String
  symbol : String
  default_str : String
deriving Repr, DecidableEq

/-- The current profile as `profile_list` computes it: falls back to
the default profile when `settings.AIIDADB_PROFILE` is unset. -/
def currentProfile (env : ListEnv) : Option String :=
  match env.aiidadb_profile with
  | none => env.default_profile
  | some p => some p

/-- Shallow embedding of `Profile.profile_list`'s output loop: one
line per configured profile, symbol ">" exactly for the current
profile, and `default_str` concatenating " (DEFAULT)" and
" (DAEMON PROFILE)" markers as the source does. -/
def profile_list_lines (env : ListEnv) : List ProfileLine :=
  env.profiles.map (fun p =>
    { name := p
      symbol := if some p = currentProfile env then ">" else "*"
      default_str :=
        (if some p = env.default_profile then " (DEFAULT)" else "") ++
        (if some p = env.default_daemon_profile then " (DAEMON PROFILE)" else "") })

end Aiida

namespace Aiida

/-- C1: `import_data` returns `import_data_sqla`'s result on the
SQLAlchemy backend, `import_data_dj`'s result on the Django backend,
and raises `ArchiveImportError` exactly when the backend is neither. -/
theorem import_data_dispatch {P G K R : Type}
    (sqla dj : P → G → K → R) (backend : String)
    (in_path : P) (group : G) (kwargs : K) :
    (backend = BACKEND_SQLA →
      import_data sqla dj backend in_path group kwargs =
        Except.ok (sqla in_path group kwargs)) ∧
    (backend = BACKEND_DJANGO →
      import_data sqla dj backend in_path group kwargs =
        Except.ok (dj in_path group kwargs)) ∧
    ((∃ e, import_data sqla dj backend in_path group kwargs = Except.error e) ↔
      (backend ≠ BACKEND_SQLA ∧ backend ≠ BACKEND_DJANGO)) := by
  refine ⟨?_, ?_, ?_⟩
  · intro h
    simp [import_data, h]
  · intro h
    simp [import_data, h, BACKEND_DJANGO, BACKEND_SQLA]
  · constructor
    · rintro ⟨e, he⟩
      by_contra hc
      rw [not_and_or, not_not, not_not] at hc
      rcases hc with h | h <;> simp [import_data, h, BACKEND_DJANGO, BACKEND_SQLA] at he
    · rintro ⟨h1, h2⟩
      refine ⟨⟨s!"Unknown backend: {backend}"⟩, ?_⟩
      simp [import_data, h1, h2]

/-- Witness for C1 at concrete backends and arguments. -/
theorem import_data_dispatch_witness :
    (("sqlalchemy" : String) = BACKEND_SQLA →
      import_data (fun (p : Nat) (g : Nat) (k : Nat) => p + g + k)
        (fun p g k => p * g * k) "sqlalchemy" 1 2 3 = Except.ok 6) ∧
    (("sqlalchemy" : String) = BACKEND_DJANGO →
      import_data (fun (p : Nat) (g : Nat) (k : Nat) => p + g + k)
        (fun p g k => p * g * k) "sqlalchemy" 1 2 3 = Except.ok 6) ∧
    ((∃ e, import_data (fun (p : Nat) (g : Nat) (k : Nat) => p + g + k)
        (fun p g k => p * g * k) "sqlalchemy" 1 2 3 = Except.error e) ↔
      (("sqlalchemy" : String) ≠ BACKEND_SQLA ∧ ("sqlalchemy" : String) ≠ BACKEND_DJANGO)) :=
  import_data_dispatch (fun p g k => p + g + k) (fun p g k => p * g * k) "sqlalchemy" 1 2 3

/-- C9: `DjangoUserCollection.create` returns a user carrying exactly
the given field values, not yet persisted (no primary key), and leaves
the user table unchanged. -/
theorem create_fields_and_frame (table : List DbUser)
    (email first_name last_name institution : String) :
    (DjangoUserCollection.create table email first_name last_name institution).1.dbmodel =
      ⟨none, email, first_name, last_name, institution⟩ ∧
    (DjangoUserCollection.create table email first_name last_name institution).2 = table := by
  exact ⟨rfl, rfl⟩

/-- C10: `DjangoUserCollection.find` with no filters returns every
user; with both filters it returns exactly the users matching both the
id and the email; and it always leaves the table unchanged. -/
theorem find_filters_and_frame (table : List DbUser) :
    (DjangoUserCollection.find table none none).1 =
      table.map DjangoUser.from_dbmodel ∧
    (∀ e i, (DjangoUserCollection.find table (some e) (some i)).1 =
      (table.filter (fun u => decide (u.pk = some i) && decide (u.email = e))).map
        DjangoUser.from_dbmodel) ∧
    (∀ e i, (DjangoUserCollection.find table e i).2 = table) := by
  refine ⟨rfl, ?_, ?_⟩
  · intro e i
    simp [DjangoUserCollection.find, List.all]
  · intro e i
    cases e <;> cases i <;> rfl

/-- C5: with an existing comment of mtime `T1` and an incoming one of
mtime `T2 > T1`, mode `newest` yields the incoming comment (hence its
body text), mode `newest` always keeps whichever comment has the later
mtime, and mode `overwrite` always yields the incoming comment
regardless of timestamps. -/
theorem mergeComment_modes (existing incoming : ArchiveComment) :
    (existing.mtime < incoming.mtime →
      mergeComment CommentMode.newest existing incoming = incoming ∧
      (mergeComment CommentMode.newest existing incoming).content = incoming.content) ∧
    (incoming.mtime < existing.mtime →
      mergeComment CommentMode.newest existing incoming = existing) ∧
    mergeComment CommentMode.overwrite existing incoming = incoming := by
  refine ⟨?_, ?_, rfl⟩
  · intro h
    constructor <;> simp [mergeComment, h]
  · intro h
    have h' : ¬ existing.mtime < incoming.mtime := by omega
    simp [mergeComment, h']

/-- Witness for C5 at concrete comments. -/
theorem mergeComment_modes_witness :
    ((ArchiveComment.mk "u" 1 "old").mtime < (ArchiveComment.mk "u" 2 "new").mtime →
      mergeComment CommentMode.newest ⟨"u", 1, "old"⟩ ⟨"u", 2, "new"⟩ = ⟨"u", 2, "new"⟩ ∧
      (mergeComment CommentMode.newest ⟨"u", 1, "old"⟩ ⟨"u", 2, "new"⟩).content = "new") ∧
    ((ArchiveComment.mk "u" 2 "new").mtime < (ArchiveComment.mk "u" 1 "old").mtime →
      mergeComment CommentMode.newest ⟨"u", 1, "old"⟩ ⟨"u", 2, "new"⟩ = ⟨"u", 1, "old"⟩) ∧
    mergeComment CommentMode.overwrite ⟨"u", 1, "old"⟩ ⟨"u", 2, "new"⟩ = ⟨"u", 2, "new"⟩ :=
  mergeComment_modes ⟨"u", 1, "old"⟩ ⟨"u", 2, "new"⟩

/-- C6: `delete_many` with an empty filter dict raises a validation
error and leaves the collection unchanged; with a non-empty
(well-typed) filter it returns the primary keys of exactly the deleted
logs, the remainder staying in the collection. -/
theorem delete_many_spec (logs : List LogEntry) (filters : List LogFilter) :
    (delete_many logs [] = Except.error "filters must not be empty" ∧
      delete_many_collection logs [] = logs) ∧
    (filters ≠ [] →
      delete_many logs filters =
        Except.ok
          ((logs.filter (fun l => filters.all (fun f => l.matches f))).map (fun l => l.id),
           logs.filter (fun l => !filters.all (fun f => l.matches f)))) := by
  refine ⟨⟨rfl, rfl⟩, ?_⟩
  intro h
  have h' : filters.isEmpty = false := by
    cases filters with
    | nil => exact absurd rfl h
    | cons a l => rfl
  simp [delete_many, h']

/-- Witness for C6 at a concrete collection and filter. -/
theorem delete_many_spec_witness :
    ((delete_many [⟨1, "lg", "ERROR", 7, "boom"⟩, ⟨2, "lg", "INFO", 8, "ok"⟩] [] =
        Except.error "filters must not be empty" ∧
      delete_many_collection [⟨1, "lg", "ERROR", 7, "boom"⟩, ⟨2, "lg", "INFO", 8, "ok"⟩] [] =
        [⟨1, "lg", "ERROR", 7, "boom"⟩, ⟨2, "lg", "INFO", 8, "ok"⟩]) ∧
    ([LogFilter.byLevelname "ERROR"] ≠ [] →
      delete_many [⟨1, "lg", "ERROR", 7, "boom"⟩, ⟨2, "lg", "INFO", 8, "ok"⟩]
          [LogFilter.byLevelname "ERROR"] =
        Except.ok
          (([(⟨1, "lg", "ERROR", 7, "boom"⟩ : LogEntry), ⟨2, "lg", "INFO", 8, "ok"⟩].filter
              (fun l => [LogFilter.byLevelname "ERROR"].all (fun f => l.matches f))).map
                (fun l => l.id),
           [(⟨1, "lg", "ERROR", 7, "boom"⟩ : LogEntry), ⟨2, "lg", "INFO", 8, "ok"⟩].filter
              (fun l => !([LogFilter.byLevelname "ERROR"].all (fun f => l.matches f)))))) :=
  delete_many_spec [⟨1, "lg", "ERROR", 7, "boom"⟩, ⟨2, "lg", "INFO", 8, "ok"⟩]
    [LogFilter.byLevelname "ERROR"]

/-- Unfolding `mergeExtras` on a cons of keys. -/
theorem mergeExtras_cons (p : ExtrasPolicy) (e i : List (String × String))
    (a : String) (ks : List String) :
    mergeExtras p e i (a :: ks) =
      match mergedValue p e i a with
      | some v => (a, v) :: mergeExtras p e i ks
      | none => mergeExtras p e i ks := rfl

/-- The merged mapping built from a key enumeration agrees pointwise
with `mergedValue` on the enumerated keys and is empty elsewhere. -/
theorem lookup_mergeExtras (p : ExtrasPolicy) (e i : List (String × String)) :
    ∀ (keys : List String) (k : String),
      (mergeExtras p e i keys).lookup k =
        if k ∈ keys then mergedValue p e i k else none := by
  intro keys
  induction keys with
  | nil =>
    intro k
    simp [mergeExtras]
  | cons a ks ih =>
    intro k
    by_cases hk : k = a
    · subst hk
      cases hv : mergedValue p e i k with
      | some v =>
        simp [mergeExtras_cons, hv, List.lookup_cons]
      | none =>
        simp [mergeExtras_cons, hv, ih k]
    · have hmem : (k ∈ a :: ks) ↔ (k ∈ ks) := by simp [List.mem_cons, hk]
      cases hv : mergedValue p e i a with
      | some v =>
        simp only [mergeExtras_cons, hv, List.lookup_cons, beq_false_of_ne hk]
        rw [ih k, if_congr hmem rfl rfl]
      | none =>
        simp only [mergeExtras_cons, hv]
        rw [ih k, if_congr hmem.symm rfl rfl]

/-- On a duplicate-free list, at most one element equals a given
value. -/
theorem countP_eq_value_le_one {α : Type} [DecidableEq α] (c : α) :
    ∀ (l : List α), l.Nodup → l.countP (fun q => decide (q = c)) ≤ 1 := by
  intro l
  induction l with
  | nil =>
    intro _
    simp
  | cons a t ih =>
    intro h
    have ha : a ∉ t := (List.nodup_cons.mp h).1
    have ht : t.Nodup := (List.nodup_cons.mp h).2
    rw [List.countP_cons]
    by_cases hc : a = c
    · subst hc
      have h0 : t.countP (fun q => decide (q = a)) = 0 := by
        apply List.countP_eq_zero.mpr
        intro x hx hxc
        rw [of_decide_eq_true hxc] at hx
        exact ha hx
      rw [h0]
      simp
    · have h1 := ih ht
      rw [decide_eq_false hc]
      simp
      omega

/-- C4: the extras conflict resolver is a deterministic total function
of (existing extras, incoming extras, policy code): the per-key action
depends only on the (present-in-existing, present-in-incoming,
values-equal) triple, every key is mapped to exactly one of the four
actions, and merging a given pair of extras mappings yields the same
merged mapping for any enumeration order of the keys. -/
theorem extras_merge_deterministic (p : ExtrasPolicy)
    (existing incoming : List (String × String)) (keys1 keys2 : List String) :
    (∀ e1 i1 e2 i2 : Option String,
        e1.isSome = e2.isSome → i1.isSome = i2.isSome →
        (e1 = i1 ↔ e2 = i2) →
        resolveKey p e1 i1 = resolveKey p e2 i2) ∧
    (∀ e i : Option String, ∃! a : ExtrasAction, resolveKey p e i = a) ∧
    (keys1.Perm keys2 →
      ∀ k, (mergeExtras p existing incoming keys1).lookup k =
        (mergeExtras p existing incoming keys2).lookup k) := by
  refine ⟨?_, ?_, ?_⟩
  · intro e1 i1 e2 i2 he hi hv
    cases e1 with
    | none =>
      cases e2 with
      | some v2 => simp at he
      | none =>
        cases i1 with
        | none =>
          cases i2 with
          | some w2 => simp at hi
          | none => rfl
        | some w1 =>
          cases i2 with
          | none => simp at hi
          | some w2 => rfl
    | some v1 =>
      cases e2 with
      | none => simp at he
      | some v2 =>
        cases i1 with
        | none =>
          cases i2 with
          | some w2 => simp at hi
          | none => rfl
        | some w1 =>
          cases i2 with
          | none => simp at hi
          | some w2 =>
            simp only [Option.some.injEq] at hv
            by_cases hw : v1 = w1
            · simp [resolveKey, hw, hv.mp hw]
            · have hw2 : ¬ v2 = w2 := fun h2 => hw (hv.mpr h2)
              simp [resolveKey, hw, hw2]
  · intro e i
    exact ⟨resolveKey p e i, rfl, fun y hy => hy.symm⟩
  · intro hperm k
    rw [lookup_mergeExtras, lookup_mergeExtras]
    exact if_congr hperm.mem_iff rfl rfl

/-- Witness for C4: same action for two value-distinct collisions, and
the same merged mapping for two enumeration orders of the keys. -/
theorem extras_merge_deterministic_witness :
    resolveKey ⟨'k', 'c', 'u'⟩ (some "1") (some "2") =
      resolveKey ⟨'k', 'c', 'u'⟩ (some "x") (some "y") ∧
    (mergeExtras ⟨'k', 'c', 'u'⟩ [("a", "1")] [("a", "2"), ("b", "3")]
        ["a", "b"]).lookup "a" =
      (mergeExtras ⟨'k', 'c', 'u'⟩ [("a", "1")] [("a", "2"), ("b", "3")]
        ["b", "a"]).lookup "a" :=
  ⟨(extras_merge_deterministic ⟨'k', 'c', 'u'⟩ [("a", "1")] [("a", "2"), ("b", "3")]
      ["a", "b"] ["b", "a"]).1 (some "1") (some "2") (some "x") (some "y") rfl rfl
      (by decide),
   (extras_merge_deterministic ⟨'k', 'c', 'u'⟩ [("a", "1")] [("a", "2"), ("b", "3")]
      ["a", "b"] ["b", "a"]).2.2 (List.Perm.swap "b" "a" []) "a"⟩

/-- Appending a node to the store only adds its UUID. -/
theorem containsUuid_append (store : List ArchiveNode) (n : ArchiveNode) (u : String) :
    containsUuid (store ++ [n]) u = (containsUuid store u || decide (n.uuid = u)) := by
  simp [containsUuid]

/-- Importing never removes a UUID from the store. -/
theorem containsUuid_importNodes (archive : List ArchiveNode) :
    ∀ (store : List ArchiveNode) (u : String), containsUuid store u = true →
      containsUuid (importNodes store archive).2 u = true := by
  induction archive with
  | nil =>
    intro store u h
    simpa [importNodes] using h
  | cons node rest ih =>
    intro store u h
    by_cases hc : containsUuid store node.uuid
    · simp only [importNodes, hc, if_true]
      exact ih store u h
    · simp only [importNodes, hc, if_false, Bool.false_eq_true]
      exact ih (store ++ [node]) u (by simp [containsUuid_append, h])

/-- After an import, every archive UUID is in the store. -/
theorem importNodes_mem (archive : List ArchiveNode) :
    ∀ (store : List ArchiveNode), ∀ a ∈ archive,
      containsUuid (importNodes store archive).2 a.uuid = true := by
  induction archive with
  | nil =>
    intro store a ha
    cases ha
  | cons node rest ih =>
    intro store a ha
    rcases List.mem_cons.mp ha with rfl | ha'
    · by_cases hc : containsUuid store a.uuid
      · simp only [importNodes, hc, if_true]
        exact containsUuid_importNodes rest store a.uuid hc
      · simp only [importNodes, hc, if_false, Bool.false_eq_true]
        exact containsUuid_importNodes rest (store ++ [a]) a.uuid
          (by simp [containsUuid_append])
    · by_cases hc : containsUuid store node.uuid
      · simp only [importNodes, hc, if_true]
        exact ih store a ha'
      · simp only [importNodes, hc, if_false, Bool.false_eq_true]
        exact ih (store ++ [node]) a ha'

/-- An import whose archive UUIDs are all already present reports
every node as existing, none as created, and leaves the store
untouched. -/
theorem importNodes_all_existing (archive : List ArchiveNode) :
    ∀ (store : List ArchiveNode),
      (∀ a ∈ archive, containsUuid store a.uuid = true) →
      importNodes store archive =
        (⟨[], archive.map (fun a => a.uuid)⟩, store) := by
  induction archive with
  | nil =>
    intro store _
    rfl
  | cons node rest ih =>
    intro store h
    have hn : containsUuid store node.uuid = true :=
      h node (List.mem_cons_self node rest)
    have hr := ih store (fun a ha => h a (List.mem_cons_of_mem node ha))
    simp [importNodes, hn, hr]

/-- An import of a duplicate-free archive into a store holding none of
its UUIDs creates every node, in order, and appends them all. -/
theorem importNodes_all_new (archive : List ArchiveNode) :
    ∀ (store : List ArchiveNode),
      (archive.map (fun a => a.uuid)).Nodup →
      (∀ a ∈ archive, containsUuid store a.uuid = false) →
      importNodes store archive =
        (⟨archive.map (fun a => a.uuid), []⟩, store ++ archive) := by
  induction archive with
  | nil =>
    intro store _ _
    simp [importNodes]
  | cons node rest ih =>
    intro store hnd h
    have hn : containsUuid store node.uuid = false :=
      h node (List.mem_cons_self node rest)
    have hnd1 : (node.uuid :: rest.map (fun a => a.uuid)).Nodup := by
      simpa using hnd
    have hnd0 := List.nodup_cons.mp hnd1
    have h' : ∀ a ∈ rest, containsUuid (store ++ [node]) a.uuid = false := by
      intro a ha
      have h1 : containsUuid store a.uuid = false :=
        h a (List.mem_cons_of_mem node ha)
      have h2 : node.uuid ≠ a.uuid := by
        intro he
        exact hnd0.1 (he ▸ List.mem_map_of_mem (fun a => a.uuid) ha)
      simp [containsUuid_append, h1, h2]
    have hr := ih (store ++ [node]) hnd0.2 h'
    simp [importNodes, hn, hr]

/-- C2: re-importing an archive into a store that already went through
one import of it creates no node: the second run reports every archive
node as existing, none as created, and the store (hence its set of
node UUIDs) is unchanged. -/
theorem import_data_idempotent (store archive : List ArchiveNode) :
    (importNodes (importNodes store archive).2 archive).1.created = [] ∧
    (importNodes (importNodes store archive).2 archive).1.existing =
      archive.map (fun a => a.uuid) ∧
    (importNodes (importNodes store archive).2 archive).2 =
      (importNodes store archive).2 := by
  have h := importNodes_all_existing archive (importNodes store archive).2
    (fun a ha => importNodes_mem archive store a ha)
  rw [h]
  exact ⟨rfl, rfl, rfl⟩

/-- C3: exporting a selection (with its backward provenance) and
importing the archive into a fresh store recreates exactly the
exported nodes, with their UUIDs and attribute values; every node of
the graph outside the export closure is absent from the store. -/
theorem export_import_roundtrip (g : Graph) (selected : List String)
    (h : (g.nodes.map (fun n => n.uuid)).Nodup) :
    (importNodes [] (exportNodes g selected)).2 = exportNodes g selected ∧
    (importNodes [] (exportNodes g selected)).1.created =
      (exportNodes g selected).map (fun n => n.uuid) ∧
    (∀ n ∈ g.nodes,
      (ancestorClosure g.links g.nodes.length selected).contains n.uuid = false →
      containsUuid (importNodes [] (exportNodes g selected)).2 n.uuid = false) := by
  have hsub : List.Sublist ((exportNodes g selected).map (fun n => n.uuid))
      (g.nodes.map (fun n => n.uuid)) := by
    exact List.Sublist.map _ (List.filter_sublist g.nodes)
  have hnd : ((exportNodes g selected).map (fun n => n.uuid)).Nodup :=
    h.sublist hsub
  have hnew : ∀ a ∈ exportNodes g selected, containsUuid [] a.uuid = false := by
    intro a _
    rfl
  have hrun := importNodes_all_new (exportNodes g selected) [] hnd hnew
  rw [hrun]
  refine ⟨by simp, by simp, ?_⟩
  intro n hn hclose
  simp only [List.nil_append, containsUuid, List.any_eq_false]
  intro m hm
  simp only [exportNodes, List.mem_filter] at hm
  intro hmu
  have : (ancestorClosure g.links g.nodes.length selected).contains n.uuid = true := by
    rw [← of_decide_eq_true hmu]
    exact hm.2
  rw [this] at hclose
  cases hclose

/-- Witness for C3 on the `test_calcfunction` graph: importing the
export of `res` into a fresh store recreates exactly the exported
nodes, and the unselected input `b` is absent afterwards. -/
theorem export_import_roundtrip_witness :
    (importNodes [] (exportNodes calcfunctionGraph ["res"])).2 =
      exportNodes calcfunctionGraph ["res"] ∧
    containsUuid (importNodes [] (exportNodes calcfunctionGraph ["res"])).2 "b" = false :=
  ⟨(export_import_roundtrip calcfunctionGraph ["res"] (by decide)).1,
   (export_import_roundtrip calcfunctionGraph ["res"] (by decide)).2.2
     ⟨"b", [("value", "1")]⟩ (by decide) (by decide)⟩

/-- Counterexample to C7: `profile delete` with an existing profile
followed by an unknown one raises the `ValueError` (so the process
exits non-zero), but the existing profile has already been removed
from the persisted configuration — a partial state change. -/
theorem profile_delete_partial_state :
    (profile_delete (fun _ => false) (fun _ => false)
        ⟨[("a", ⟨"db_a", "usr_a"⟩)], ["db_a"], ["usr_a"]⟩ ["a", "b"]).error =
      some "Profile \x22b\x22 does not exist" ∧
    (profile_delete (fun _ => false) (fun _ => false)
        ⟨[("a", ⟨"db_a", "usr_a"⟩)], ["db_a"], ["usr_a"]⟩ ["a", "b"]).state.profiles = [] ∧
    ([] : List (String × ProfileInfo)) ≠ [("a", ⟨"db_a", "usr_a"⟩)] := by
  refine ⟨by decide, by decide, by decide⟩

/-- C7 (amended): `profile setdefault` misuse — wrong arity or an
invalid process name — prints an error on stderr, exits with status 1
and leaves the default-profile settings unchanged; `profile delete`
with an unknown profile name raises a `ValueError` (non-zero exit) and
leaves the persisted state unchanged when the unknown name is the
first argument — profiles listed before the unknown name have already
been deleted when the error is raised. -/
theorem profile_cli_misuse_amended
    (defaults : List (String × String)) (args : List String)
    (confirmDb confirmUser : String → Bool) (st : DeleteState)
    (p : String) (rest : List String) :
    (args.length ≠ 2 →
      (profile_setdefault defaults args).exitCode = 1 ∧
      (profile_setdefault defaults args).stderrLines ≠ [] ∧
      (profile_setdefault defaults args).defaults = defaults) ∧
    (args.length = 2 → valid_processes.contains (args.getD 0 "") = false →
      (profile_setdefault defaults args).exitCode = 1 ∧
      (profile_setdefault defaults args).stderrLines ≠ [] ∧
      (profile_setdefault defaults args).defaults = defaults) ∧
    (st.profiles.lookup p = none →
      (profile_delete confirmDb confirmUser st (p :: rest)).error =
        some s!"Profile \x22{p}\x22 does not exist" ∧
      (profile_delete confirmDb confirmUser st (p :: rest)).state = st) := by
  refine ⟨?_, ?_, ?_⟩
  · intro h
    rw [profile_setdefault, if_pos h]
    exact ⟨rfl, by simp, rfl⟩
  · intro h2 hv
    rw [profile_setdefault, if_neg (by simp [h2]), if_pos hv]
    exact ⟨rfl, by simp, rfl⟩
  · intro h
    rw [profile_delete, h]
    exact ⟨rfl, rfl⟩

/-- Witness for C7 (amended) at concrete misuses: one argument to
`setdefault`, and `delete` of a profile missing from an empty
registry. -/
theorem profile_cli_misuse_amended_witness :
    (profile_setdefault [] ["x"]).exitCode = 1 ∧
    (profile_setdefault [] ["x"]).defaults = [] ∧
    (profile_delete (fun _ => false) (fun _ => false) ⟨[], [], []⟩ ["b"]).state =
      ⟨[], [], []⟩ :=
  ⟨((profile_cli_misuse_amended [] ["x"] (fun _ => false) (fun _ => false)
      ⟨[], [], []⟩ "b" []).1 (by decide)).1,
   ((profile_cli_misuse_amended [] ["x"] (fun _ => false) (fun _ => false)
      ⟨[], [], []⟩ "b" []).1 (by decide)).2.2,
   ((profile_cli_misuse_amended [] ["x"] (fun _ => false) (fun _ => false)
      ⟨[], [], []⟩ "b" []).2.2 rfl).2⟩

/-- Counterexample to C8: with one configured profile but no current
profile (no `AIIDADB_PROFILE` and no default), `profile list` marks no
profile as current, not exactly one. -/
theorem profile_list_no_current :
    (profile_list_lines ⟨["a"], none, none, none⟩).countP
      (fun l => decide (l.symbol = ">")) ≠ 1 := by
  decide

/-- Marker predicates that single out at most one profile: a helper
counting lemma. -/
theorem countP_le_one_of_iff {f : String → Bool} (target : Option String)
    (profiles : List String) (h : profiles.Nodup)
    (hf : ∀ p, f p = true ↔ some p = target) :
    profiles.countP f ≤ 1 := by
  cases target with
  | none =>
    have h0 : profiles.countP f = 0 := by
      apply List.countP_eq_zero.mpr
      intro p _ hfp
      exact Option.some_ne_none p ((hf p).mp hfp)
    omega
  | some c =>
    have hc : profiles.countP f = profiles.countP (fun q => decide (q = c)) := by
      apply List.countP_congr
      intro x _
      rw [hf x]
      simp
    rw [hc]
    exact countP_eq_value_le_one c profiles h

/-- C8 (amended): on any configuration with duplicate-free profile
names, `profile list` marks at most one profile as current, at most
one as the default of the current process, and at most one as the
daemon default. -/
theorem profile_list_markers (env : ListEnv) (h : env.profiles.Nodup) :
    (profile_list_lines env).countP (fun l => decide (l.symbol = ">")) ≤ 1 ∧
    (profile_list_lines env).countP
      (fun l => decide (l.default_str = " (DEFAULT)" ∨
        l.default_str = " (DEFAULT) (DAEMON PROFILE)")) ≤ 1 ∧
    (profile_list_lines env).countP
      (fun l => decide (l.default_str = " (DAEMON PROFILE)" ∨
        l.default_str = " (DEFAULT) (DAEMON PROFILE)")) ≤ 1 := by
  refine ⟨?_, ?_, ?_⟩
  · rw [profile_list_lines, List.countP_map]
    apply countP_le_one_of_iff (currentProfile env) env.profiles h
    intro p
    simp only [Function.comp_apply, decide_eq_true_eq]
    by_cases hp : some p = currentProfile env
    · rw [if_pos hp]
      exact iff_of_true (by decide) hp
    · rw [if_neg hp]
      exact iff_of_false (by decide) hp
  · rw [profile_list_lines, List.countP_map]
    apply countP_le_one_of_iff env.default_profile env.profiles h
    intro p
    simp only [Function.comp_apply, decide_eq_true_eq]
    by_cases hp : some p = env.default_profile
    · by_cases hd : some p = env.default_daemon_profile
      · rw [if_pos hp, if_pos hd]
        exact iff_of_true (Or.inr (by decide)) hp
      · rw [if_pos hp, if_neg hd]
        exact iff_of_true (Or.inl (by decide)) hp
    · by_cases hd : some p = env.default_daemon_profile
      · rw [if_neg hp, if_pos hd]
        exact iff_of_false (by decide) hp
      · rw [if_neg hp, if_neg hd]
        exact iff_of_false (by decide) hp
  · rw [profile_list_lines, List.countP_map]
    apply countP_le_one_of_iff env.default_daemon_profile env.profiles h
    intro p
    simp only [Function.comp_apply, decide_eq_true_eq]
    by_cases hp : some p = env.default_profile
    · by_cases hd : some p = env.default_daemon_profile
      · rw [if_pos hp, if_pos hd]
        exact iff_of_true (Or.inr (by decide)) hd
      · rw [if_pos hp, if_neg hd]
        exact iff_of_false (by decide) hd
    · by_cases hd : some p = env.default_daemon_profile
      · rw [if_neg hp, if_pos hd]
        exact iff_of_true (Or.inl (by decide)) hd
      · rw [if_neg hp, if_neg hd]
        exact iff_of_false (by decide) hd

/-- Witness for C8 (amended) on a concrete two-profile
configuration. -/
theorem profile_list_markers_witness :
    (profile_list_lines ⟨["a", "b"], some "a", some "b", some "b"⟩).countP
      (fun l => decide (l.symbol = ">")) ≤ 1 ∧
    (profile_list_lines ⟨["a", "b"], some "a", some "b", some "b"⟩).countP
      (fun l => decide (l.default_str = " (DEFAULT)" ∨
        l.default_str = " (DEFAULT) (DAEMON PROFILE)")) ≤ 1 ∧
    (profile_list_lines ⟨["a", "b"], some "a", some "b", some "b"⟩).countP
      (fun l => decide (l.default_str = " (DAEMON PROFILE)" ∨
        l.default_str = " (DEFAULT) (DAEMON PROFILE)")) ≤ 1 :=
  profile_list_markers ⟨["a", "b"], some "a", some "b", some "b"⟩ (by decide)

end Aiida
